import Mathlib

/-!
Shallow embedding of the delivery engine of the `tracing-loki` log-shipping
client: per-severity send queues (`SendQueue` in `src/lib.rs`), the
exponential-backoff computation (`BackgroundTask::backoff_time`), the
background polling task (`BackgroundTask::poll`), label validation
(`src/labels.rs`) and the HTTP redirect policy, together with proofs about
the specification claims.

Machine integers are modelled as `Nat` with explicit reductions modulo
`2 ^ 64` where the Rust code performs `u64` arithmetic.  Durations are
modelled in milliseconds.  The asynchronous environment of one `poll` call
(items available on the channel, whether the backoff timer has elapsed,
whether the outstanding HTTP request has resolved and with which result) is
made explicit as a `PollEnv` record.
-/

namespace TracingLoki

/-- The five severity levels (`tracing_core::Level`), in the order used by
`level_index` in `src/level_map.rs`. -/
inductive Level where
  | trace
  | debug
  | info
  | warn
  | error
deriving DecidableEq

/-- A captured log record (`LokiEvent` in `src/lib.rs`).  The wall-clock
timestamp is modelled as a natural number and the pre-rendered JSON payload
as an opaque string. -/
structure LokiEvent where
  trigger_send : Bool
  timestamp : Nat
  level : Level
  message : String
deriving DecidableEq

/-- One wire-format entry (`loki_api::logproto::EntryAdapter`): a timestamp
together with the rendered log line. -/
structure EntryAdapter where
  timestamp : Nat
  line : String
deriving DecidableEq

/-- One wire-format stream (`loki_api::logproto::StreamAdapter`): a label
string and the list of entries, plus the `hash` field which the code always
sets to `0`. -/
structure StreamAdapter where
  labels : String
  entries : List EntryAdapter
  hash : Nat
deriving DecidableEq

/-- The conversion performed inside `SendQueue::prepare_sending` from an
event to its wire entry. -/
def LokiEvent.toEntry (e : LokiEvent) : EntryAdapter :=
  { timestamp := e.timestamp, line := e.message }

/-- Per-severity send queue (`SendQueue` in `src/lib.rs`): the pre-rendered
label string, the in-flight events (`sending`) and the pending events
(`to_send`). -/
structure SendQueue where
  encoded_labels : String
  sending : List LokiEvent
  to_send : List LokiEvent
deriving DecidableEq

/-- Constructor `SendQueue::new`. -/
def SendQueue.new (encoded_labels : String) : SendQueue :=
  { encoded_labels := encoded_labels, sending := [], to_send := [] }

/-- Method `SendQueue::push`: append the event to `to_send`. -/
def SendQueue.push (q : SendQueue) (e : LokiEvent) : SendQueue :=
  { q with to_send := q.to_send ++ [e] }

/-- Method `SendQueue::drop_outstanding`: clear `sending` and return the
number of cleared events. -/
def SendQueue.drop_outstanding (q : SendQueue) : SendQueue × Nat :=
  ({ q with sending := [] }, q.sending.length)

/-- Method `SendQueue::on_send_result`.  On success (`Ok`), `sending` is
cleared.  On failure (`Err`), the code appends `to_send` onto `sending` and
then swaps the two vectors, so the new `to_send` is the old `sending`
followed by the old `to_send`, and the new `sending` is empty. -/
def SendQueue.on_send_result (q : SendQueue) (result : Except Unit Unit) : SendQueue :=
  match result with
  | .ok () => { q with sending := [] }
  | .error () => { q with sending := [], to_send := q.sending ++ q.to_send }

/-- Method `SendQueue::should_send`: true when some pending event carries the
`trigger_send` flag. -/
def SendQueue.should_send (q : SendQueue) : Bool :=
  q.to_send.any (fun e => e.trigger_send)

/-- Method `SendQueue::prepare_sending`.  The code panics when `sending` is
non-empty, modelled by returning `none`.  Otherwise `to_send` is swapped
into `sending` and a `StreamAdapter` with the queue's labels, the swapped
entries, and `hash = 0` is returned. -/
def SendQueue.prepare_sending (q : SendQueue) : Option (SendQueue × StreamAdapter) :=
  if q.sending.isEmpty then
    some ({ q with sending := q.to_send, to_send := [] },
      { labels := q.encoded_labels, entries := q.to_send.map LokiEvent.toEntry, hash := 0 })
  else
    none

/-- The stream that `prepare_sending` emits for a queue, as a function of the
queue's state before the swap.  Used to state theorems about the content of
prepared requests. -/
def streamOf (q : SendQueue) : StreamAdapter :=
  { labels := q.encoded_labels, entries := q.to_send.map LokiEvent.toEntry, hash := 0 }

theorem prepare_sending_eq_some (q : SendQueue) (p : SendQueue × StreamAdapter) :
    q.prepare_sending = some p ↔
      q.sending = [] ∧ p = ({ q with sending := q.to_send, to_send := [] }, streamOf q) := by
  simp only [SendQueue.prepare_sending, streamOf, List.isEmpty_iff]
  split
  · simp_all [eq_comm]
  · simp_all

/-- Claim C2: on a failed send, `on_send_result` empties `sending` and sets
`to_send` to the old `sending` followed by the old `to_send`, preserving the
relative order within each. -/
theorem c2_on_send_failure (q : SendQueue) :
    (q.on_send_result (.error ())).sending = [] ∧
      (q.on_send_result (.error ())).to_send = q.sending ++ q.to_send := by
  constructor <;> rfl

/-- Claim C10: on a successful send, `on_send_result` empties `sending` and
leaves `to_send` and the pre-rendered label string unchanged, so events
submitted while the request was in flight are retained. -/
theorem c10_on_send_success (q : SendQueue) :
    (q.on_send_result (.ok ())).sending = [] ∧
      (q.on_send_result (.ok ())).to_send = q.to_send ∧
      (q.on_send_result (.ok ())).encoded_labels = q.encoded_labels := by
  exact ⟨rfl, rfl, rfl⟩

/-- Fixed-size map from severity levels to values (`LevelMap` in
`src/level_map.rs`, a five-element array indexed by `level_index`). -/
structure LevelMap (α : Type) where
  trace : α
  debug : α
  info : α
  warn : α
  error : α
deriving DecidableEq

/-- Constructor `LevelMap::from_fn`. -/
def LevelMap.from_fn {α : Type} (f : Level → α) : LevelMap α :=
  { trace := f .trace, debug := f .debug, info := f .info, warn := f .warn, error := f .error }

/-- Lookup, i.e. `Index<Level> for LevelMap` via `level_index`. -/
def LevelMap.get {α : Type} (m : LevelMap α) : Level → α
  | .trace => m.trace
  | .debug => m.debug
  | .info => m.info
  | .warn => m.warn
  | .error => m.error

/-- Point update at one level, i.e. `IndexMut<Level> for LevelMap`. -/
def LevelMap.update {α : Type} (m : LevelMap α) (l : Level) (f : α → α) : LevelMap α :=
  match l with
  | .trace => { m with trace := f m.trace }
  | .debug => { m with debug := f m.debug }
  | .info => { m with info := f m.info }
  | .warn => { m with warn := f m.warn }
  | .error => { m with error := f m.error }

/-- Iterator `LevelMap::values`, in array order. -/
def LevelMap.values {α : Type} (m : LevelMap α) : List α :=
  [m.trace, m.debug, m.info, m.warn, m.error]

/-- Applying a function to every bucket, as `values_mut` loops do. -/
def LevelMap.map {α : Type} (f : α → α) (m : LevelMap α) : LevelMap α :=
  { trace := f m.trace, debug := f m.debug, info := f m.info, warn := f m.warn,
    error := f m.error }

theorem LevelMap.get_map {α : Type} (f : α → α) (m : LevelMap α) (l : Level) :
    (m.map f).get l = f (m.get l) := by
  cases l <;> rfl

theorem LevelMap.get_update {α : Type} (m : LevelMap α) (l l' : Level) (f : α → α) :
    (m.update l f).get l' = if l' = l then f (m.get l) else m.get l' := by
  cases l <;> cases l' <;> simp [LevelMap.update, LevelMap.get]

theorem LevelMap.values_eq_map_get {α : Type} (m : LevelMap α) :
    m.values = [Level.trace, .debug, .info, .warn, .error].map m.get := by
  rfl

theorem LevelMap.mem_values {α : Type} (m : LevelMap α) (x : α) :
    x ∈ m.values ↔ ∃ l, m.get l = x := by
  constructor
  · intro h
    simp only [LevelMap.values, List.mem_cons, List.not_mem_nil, or_false] at h
    rcases h with h | h | h | h | h
    exacts [⟨.trace, h.symm⟩, ⟨.debug, h.symm⟩, ⟨.info, h.symm⟩, ⟨.warn, h.symm⟩,
      ⟨.error, h.symm⟩]
  · rintro ⟨l, rfl⟩
    cases l <;> simp [LevelMap.values, LevelMap.get]

/-- The value `u64::MAX`. -/
def U64_MAX : Nat := 2 ^ 64 - 1

/-- Rust's `u64::checked_shl`: `none` when the shift amount is at least 64;
otherwise the shifted value with the bits above 64 discarded (Rust's `<<` on
`u64` keeps the low 64 bits; only an out-of-range shift amount is an
error). -/
def checked_shl (x : Nat) (n : Nat) : Option Nat :=
  if n ≥ 64 then none else some ((x <<< n) % 2 ^ 64)

/-- Method `BackgroundTask::backoff_time`, as a function of the failure
counter `backoff_count`.  Returns the pair of the long-outage indicator
(`backoff_time >= 30 s`, computed on the uncapped value) and the delay in
milliseconds capped at 600 s.  The uncapped value is
`500u64.checked_shl(backoff_count - 1).unwrap_or(u64::MAX)` when the counter
is at least 1, and 0 otherwise. -/
def BackgroundTask.backoff_time (backoff_count : Nat) : Bool × Nat :=
  let bt : Nat :=
    if backoff_count ≥ 1 then (checked_shl 500 (backoff_count - 1)).getD U64_MAX
    else 0
  (decide (bt ≥ 30000), min bt 600000)

/-- Diagnostics the background task emits through its side channel
(`tracing::error!` calls in `BackgroundTask::poll`): the per-attempt send
error (tagged with the attempt count and the computed backoff delay) and the
dropped-messages report. -/
inductive Diagnostic where
  | sendError (error_count : Nat) (backoff_ms : Nat)
  | droppedOutstanding (num_dropped : Nat)
deriving DecidableEq

/-- The state of `BackgroundTask` that the poll loop manipulates.  The HTTP
client, URL and scratch buffer are omitted (they carry no claim-relevant
state); the outstanding send future is modelled by the streams of the
request it carries, and the armed backoff timer by its duration in
milliseconds. -/
structure BackgroundTask where
  queues : LevelMap SendQueue
  backoff_count : Nat
  backoff : Option Nat
  quitting : Bool
  send_task : Option (List StreamAdapter)
deriving DecidableEq

/-- The initial state built by `BackgroundTask::new`: empty queues with
pre-rendered labels, zero failures, no timer, not quitting, no outstanding
send. -/
def initialTask (labels : Level → String) : BackgroundTask :=
  { queues := LevelMap.from_fn (fun l => SendQueue.new (labels l))
    backoff_count := 0
    backoff := none
    quitting := false
    send_task := none }

instance : DecidableEq (Except Unit Unit) := fun a b =>
  match a, b with
  | .ok (), .ok () => isTrue rfl
  | .error (), .error () => isTrue rfl
  | .ok (), .error () => isFalse (fun h => Except.noConfusion h)
  | .error (), .ok () => isFalse (fun h => Except.noConfusion h)

/-- The asynchronous environment of one `poll` call: the items the channel
yields this cycle (`none` is the explicit close sentinel), whether the
channel reported closed (sender dropped), whether the backoff timer polls
ready, and the result of the outstanding send future if it polls ready this
cycle (`none` means it is still pending; ignored when no send task
exists). -/
structure PollEnv where
  incoming : List (Option LokiEvent)
  closed : Bool
  backoffElapsed : Bool
  sendResult : Option (Except Unit Unit)
deriving DecidableEq

/-- The channel-draining loop at the top of `BackgroundTask::poll`: every
received event is pushed into its level's queue; a close sentinel sets the
quitting flag but draining continues. -/
def drainChannel : LevelMap SendQueue → Bool → List (Option LokiEvent) →
    LevelMap SendQueue × Bool
  | qs, quitting, [] => (qs, quitting)
  | qs, quitting, some e :: rest =>
    drainChannel (qs.update e.level (fun q => q.push e)) quitting rest
  | qs, _, none :: rest => drainChannel qs true rest

/-- The result of one `poll` call: the successor state, whether the future
returned `Poll::Ready(())`, and the diagnostics emitted during the call. -/
structure PollOutput where
  state : BackgroundTask
  ready : Bool
  diags : List Diagnostic
deriving DecidableEq

/-- First phase of `BackgroundTask::poll`: drain the channel, poll the
backoff timer (dropping it when it is no longer pending), and handle
completion of the outstanding send future.  On failure the backoff delay is
computed from the pre-increment counter, a send-error diagnostic is emitted,
outstanding (`sending`) events of every bucket are dropped and reported when
the long-outage indicator is set, the timer is armed and the counter is
incremented; on success the counter resets to 0.  In both cases
`on_send_result` runs on every queue and the send task is cleared.  Returns
the intermediate state, the `backing_off` flag and the diagnostics. -/
def pollPhase1 (s : BackgroundTask) (env : PollEnv) :
    BackgroundTask × Bool × List Diagnostic :=
  let drained := drainChannel s.queues s.quitting env.incoming
  let qs1 := drained.1
  let quitting1 := drained.2 || env.closed
  let backing0 := s.backoff.isSome && !env.backoffElapsed
  let backoff0 := if backing0 then s.backoff else none
  match s.send_task, env.sendResult with
  | some _, some res =>
    match res with
    | .error () =>
      let bt := BackgroundTask.backoff_time s.backoff_count
      let dropped :=
        if bt.1 then
          ((qs1.map (fun q => q.drop_outstanding.1)),
            [Diagnostic.droppedOutstanding
              ((qs1.values.map (fun q => q.drop_outstanding.2)).sum)])
        else (qs1, [])
      let qs3 := dropped.1.map (fun q => q.on_send_result (.error ()))
      ({ queues := qs3, backoff_count := s.backoff_count + 1, backoff := some bt.2,
          quitting := quitting1, send_task := none }, true,
        Diagnostic.sendError (s.backoff_count + 1) bt.2 :: dropped.2)
    | .ok () =>
      let qs3 := qs1.map (fun q => q.on_send_result (.ok ()))
      ({ queues := qs3, backoff_count := 0, backoff := backoff0, quitting := quitting1,
          send_task := none }, backing0, [])
  | st, _ =>
    ({ queues := qs1, backoff_count := s.backoff_count, backoff := backoff0,
        quitting := quitting1, send_task := st }, backing0, [])

/-- Preparing one combined request: `prepare_sending` on every bucket in
order (propagating the panic as `none`), keeping only streams with non-empty
entries, exactly as the `values_mut().map(prepare_sending).filter(...)`
chain in `poll`. -/
def prepareAll (qs : LevelMap SendQueue) :
    Option (LevelMap SendQueue × List StreamAdapter) :=
  match qs.trace.prepare_sending, qs.debug.prepare_sending, qs.info.prepare_sending,
      qs.warn.prepare_sending, qs.error.prepare_sending with
  | some pt, some pd, some pi, some pw, some pe =>
    some ({ trace := pt.1, debug := pd.1, info := pi.1, warn := pw.1, error := pe.1 },
      ([pt.2, pd.2, pi.2, pw.2, pe.2]).filter (fun st => !st.entries.isEmpty))
  | _, _, _, _, _ => none

/-- Second phase of `BackgroundTask::poll`: when no send task is outstanding,
the backoff timer is not pending and some bucket wants to send, prepare a
new request (the fresh future polls pending, so the loop then exits);
otherwise leave the state unchanged.  Finally `poll` returns `Ready` exactly
when `quitting` is set and no send task is outstanding. -/
def pollPhase2 (s : BackgroundTask) (backing : Bool) :
    Option (BackgroundTask × Bool) :=
  if s.send_task.isNone && !backing && s.queues.values.any SendQueue.should_send then
    match prepareAll s.queues with
    | none => none
    | some p =>
      some ({ s with queues := p.1, send_task := some p.2 }, false)
  else
    some (s, s.quitting && s.send_task.isNone)

/-- One full call of `BackgroundTask::poll` under environment `env`;
`none` models the panic in `prepare_sending`. -/
def pollStep (s : BackgroundTask) (env : PollEnv) : Option PollOutput :=
  let p1 := pollPhase1 s env
  match pollPhase2 p1.1 p1.2.1 with
  | none => none
  | some p2 => some { state := p2.1, ready := p2.2, diags := p1.2.2 }

/-- Iterating `pollStep` over a list of environments, collecting all
diagnostics; the final boolean is the `ready` result of the last poll
(`false` for the empty list). -/
def runPolls (s : BackgroundTask) : List PollEnv → Option (BackgroundTask × List Diagnostic × Bool)
  | [] => some (s, [], false)
  | env :: rest =>
    match pollStep s env with
    | none => none
    | some o =>
      match rest with
      | [] => some (o.state, o.diags, o.ready)
      | _ :: _ =>
        match runPolls o.state rest with
        | none => none
        | some r => some (r.1, o.diags ++ r.2.1, r.2.2)

/-- Reachable states of the delivery engine: any initial state, and any
state produced by a non-panicking poll from a reachable state under an
arbitrary environment. -/
inductive Reachable : BackgroundTask → Prop where
  | init : ∀ labels, Reachable (initialTask labels)
  | step : ∀ s env out, Reachable s → pollStep s env = some out → Reachable out.state

theorem drainChannel_get_sending (inc : List (Option LokiEvent)) (qs : LevelMap SendQueue)
    (b : Bool) (l : Level) :
    ((drainChannel qs b inc).1.get l).sending = (qs.get l).sending := by
  induction inc generalizing qs b with
  | nil => rfl
  | cons x rest ih =>
    cases x with
    | none => exact ih qs true
    | some e =>
      show ((drainChannel (qs.update e.level (fun q => q.push e)) b rest).1.get l).sending = _
      rw [ih, LevelMap.get_update]
      by_cases hle : l = e.level
      · subst hle
        rw [if_pos rfl]
        rfl
      · rw [if_neg hle]

theorem prepareAll_of_sending_empty (qs : LevelMap SendQueue)
    (h : ∀ l, (qs.get l).sending = []) :
    prepareAll qs =
      some (qs.map (fun q => { q with sending := q.to_send, to_send := [] }),
        (qs.values.map streamOf).filter (fun st => !st.entries.isEmpty)) := by
  have ht := h .trace
  have hd := h .debug
  have hi := h .info
  have hw := h .warn
  have he := h .error
  simp only [LevelMap.get] at ht hd hi hw he
  simp [prepareAll, SendQueue.prepare_sending, ht, hd, hi, hw, he, LevelMap.map,
    LevelMap.values, streamOf]

theorem prepareAll_isSome_iff (qs : LevelMap SendQueue) :
    (prepareAll qs).isSome = true ↔ ∀ l, (qs.get l).sending = [] := by
  constructor
  · intro h l
    cases hpt : qs.trace.prepare_sending with
    | none => simp [prepareAll, hpt] at h
    | some pt =>
    cases hpd : qs.debug.prepare_sending with
    | none => simp [prepareAll, hpt, hpd] at h
    | some pd =>
    cases hpi : qs.info.prepare_sending with
    | none => simp [prepareAll, hpt, hpd, hpi] at h
    | some pi =>
    cases hpw : qs.warn.prepare_sending with
    | none => simp [prepareAll, hpt, hpd, hpi, hpw] at h
    | some pw =>
    cases hpe : qs.error.prepare_sending with
    | none => simp [prepareAll, hpt, hpd, hpi, hpw, hpe] at h
    | some pe =>
      have ht := ((prepare_sending_eq_some _ _).mp hpt).1
      have hd := ((prepare_sending_eq_some _ _).mp hpd).1
      have hi := ((prepare_sending_eq_some _ _).mp hpi).1
      have hw := ((prepare_sending_eq_some _ _).mp hpw).1
      have he := ((prepare_sending_eq_some _ _).mp hpe).1
      cases l <;> assumption
  · intro h
    rw [prepareAll_of_sending_empty qs h]
    rfl

theorem sending_empty_after_result (X : LevelMap SendQueue) (res : Except Unit Unit)
    (l : Level) :
    ((X.map (fun q => q.on_send_result res)).get l).sending = [] := by
  rw [LevelMap.get_map]
  cases res with
  | ok u => cases u; rfl
  | error u => cases u; rfl

theorem pollPhase1_cases (s : BackgroundTask) (env : PollEnv) :
    ((pollPhase1 s env).1.send_task = s.send_task ∧
      ∀ l, ((pollPhase1 s env).1.queues.get l).sending = (s.queues.get l).sending) ∨
    ((pollPhase1 s env).1.send_task = none ∧
      ∀ l, ((pollPhase1 s env).1.queues.get l).sending = []) := by
  rcases hst : s.send_task with _ | streams
  · left
    simp only [pollPhase1, hst]
    exact ⟨trivial, fun l => drainChannel_get_sending _ _ _ l⟩
  · rcases hsr : env.sendResult with _ | res
    · left
      simp only [pollPhase1, hst, hsr]
      exact ⟨trivial, fun l => drainChannel_get_sending _ _ _ l⟩
    · right
      cases res with
      | ok u =>
        cases u
        simp only [pollPhase1, hst, hsr]
        exact ⟨trivial, fun l => sending_empty_after_result _ _ l⟩
      | error u =>
        cases u
        simp only [pollPhase1, hst, hsr]
        exact ⟨trivial, fun l => sending_empty_after_result _ _ l⟩

theorem pollPhase1_preserves_inv (s : BackgroundTask) (env : PollEnv)
    (hinv : s.send_task = none → ∀ l, (s.queues.get l).sending = []) :
    (pollPhase1 s env).1.send_task = none →
      ∀ l, ((pollPhase1 s env).1.queues.get l).sending = [] := by
  rcases pollPhase1_cases s env with ⟨hst, hsend⟩ | ⟨hst, hsend⟩
  · intro hn l
    rw [hsend l]
    exact hinv (hst.symm.trans hn) l
  · intro _ l
    exact hsend l

theorem pollPhase2_isSome (s1 : BackgroundTask) (backing : Bool)
    (hinv : s1.send_task = none → ∀ l, (s1.queues.get l).sending = []) :
    (pollPhase2 s1 backing).isSome = true := by
  unfold pollPhase2
  split
  · rename_i hcond
    simp only [Bool.and_eq_true, Option.isNone_iff_eq_none] at hcond
    rw [prepareAll_of_sending_empty _ (hinv hcond.1.1)]
    rfl
  · rfl

theorem pollPhase2_preserves (s1 : BackgroundTask) (backing : Bool)
    (p : BackgroundTask × Bool) (h : pollPhase2 s1 backing = some p)
    (hinv : s1.send_task = none → ∀ l, (s1.queues.get l).sending = []) :
    p.1.send_task = none → ∀ l, (p.1.queues.get l).sending = [] := by
  unfold pollPhase2 at h
  split at h
  · rcases hpa : prepareAll s1.queues with _ | pp
    · rw [hpa] at h
      exact Option.noConfusion h
    · rw [hpa] at h
      cases h
      intro habs
      exact Option.noConfusion habs
  · cases h
    exact hinv

theorem pollStep_isSome (s : BackgroundTask) (env : PollEnv)
    (hinv : s.send_task = none → ∀ l, (s.queues.get l).sending = []) :
    (pollStep s env).isSome = true := by
  have hinv1 := pollPhase1_preserves_inv s env hinv
  have h2 := pollPhase2_isSome (pollPhase1 s env).1 (pollPhase1 s env).2.1 hinv1
  simp only [pollStep]
  rcases hp2 : pollPhase2 (pollPhase1 s env).1 (pollPhase1 s env).2.1 with _ | p
  · rw [hp2] at h2
    exact absurd h2 (by simp)
  · rfl

theorem pollStep_preserves (s : BackgroundTask) (env : PollEnv) (out : PollOutput)
    (h : pollStep s env = some out)
    (hinv : s.send_task = none → ∀ l, (s.queues.get l).sending = []) :
    out.state.send_task = none → ∀ l, (out.state.queues.get l).sending = [] := by
  have hinv1 := pollPhase1_preserves_inv s env hinv
  simp only [pollStep] at h
  rcases hp2 : pollPhase2 (pollPhase1 s env).1 (pollPhase1 s env).2.1 with _ | p
  · rw [hp2] at h
    exact Option.noConfusion h
  · rw [hp2] at h
    cases h
    exact pollPhase2_preserves _ _ _ hp2 hinv1

theorem pollStep_eq_of_phase2 (s : BackgroundTask) (env : PollEnv)
    (p : BackgroundTask × Bool)
    (hp2 : pollPhase2 (pollPhase1 s env).1 (pollPhase1 s env).2.1 = some p) :
    pollStep s env =
      some { state := p.1, ready := p.2, diags := (pollPhase1 s env).2.2 } := by
  simp only [pollStep, hp2]

/-- Claim C4: in every reachable state of the delivery engine, when no send
task is outstanding every bucket's `sending` list is empty (the `send_task`
option field makes "at most one outstanding request" structural), and hence
`poll` never reaches the panic in `prepare_sending`: `pollStep` is total on
reachable states. -/
theorem c4_invariant (s : BackgroundTask) (h : Reachable s) :
    (s.send_task = none → ∀ l, (s.queues.get l).sending = []) ∧
      ∀ env, (pollStep s env).isSome = true := by
  have hinv : s.send_task = none → ∀ l, (s.queues.get l).sending = [] := by
    induction h with
    | init labels =>
      intro _ l
      cases l <;> rfl
    | step s' env' out' hr hstep ih => exact pollStep_preserves s' env' out' hstep ih
  exact ⟨hinv, fun env => pollStep_isSome s env hinv⟩

/-- Claim C4, witness: the invariant and totality evaluated at the initial
state. -/
theorem c4_invariant_witness :
    ((initialTask fun _ => "base").queues.get .info).sending = [] ∧
      (pollStep (initialTask fun _ => "base")
        { incoming := [], closed := false, backoffElapsed := false, sendResult := none
          }).isSome = true :=
  ⟨(c4_invariant _ (Reachable.init _)).1 rfl .info,
    (c4_invariant _ (Reachable.init _)).2 _⟩

theorem c6_backoff_time_values :
    BackgroundTask.backoff_time 0 = (false, 0) ∧
      BackgroundTask.backoff_time 1 = (false, 500) ∧
      BackgroundTask.backoff_time 7 = (true, 32000) ∧
      BackgroundTask.backoff_time 65 = (true, 600000) ∧
      BackgroundTask.backoff_time 63 = (false, 0) ∧
      BackgroundTask.backoff_time 64 = (false, 0) ∧
      500 * 2 ^ 62 ≥ 30000 := by
  decide

theorem prepareAll_eq_canonical (qs : LevelMap SendQueue)
    (pp : LevelMap SendQueue × List StreamAdapter) (h : prepareAll qs = some pp) :
    pp = (qs.map (fun q => { q with sending := q.to_send, to_send := [] }),
      (qs.values.map streamOf).filter (fun st => !st.entries.isEmpty)) := by
  have hs : ∀ l, (qs.get l).sending = [] := by
    apply (prepareAll_isSome_iff qs).mp
    rw [h]
    rfl
  have hcanon := prepareAll_of_sending_empty qs hs
  rw [h] at hcanon
  exact Option.some_inj.mp hcanon

/-- Claim C7, amended: `pollStep` reports `Ready` exactly when the final
state has the quitting flag set and no send task outstanding.  (The code
does not require the backoff timer to have been resolved; the claim's
additional "no backoff timer pending" conjunct does not hold, see the
counterexample.  The channel has been fully drained by construction: the
drain loop consumes everything the channel yields this cycle.) -/
theorem c7_ready_iff (s : BackgroundTask) (env : PollEnv) (out : PollOutput)
    (h : pollStep s env = some out) :
    out.ready = true ↔ out.state.quitting = true ∧ out.state.send_task = none := by
  simp only [pollStep] at h
  rcases hp2 : pollPhase2 (pollPhase1 s env).1 (pollPhase1 s env).2.1 with _ | p
  · rw [hp2] at h
    exact Option.noConfusion h
  · rw [hp2] at h
    cases h
    unfold pollPhase2 at hp2
    split at hp2
    · rcases hpa : prepareAll (pollPhase1 s env).1.queues with _ | pp
      · rw [hpa] at hp2
        exact Option.noConfusion hp2
      · rw [hpa] at hp2
        cases hp2
        simp
    · cases hp2
      simp [Bool.and_eq_true, Option.isNone_iff_eq_none]

/-- Claim C7, witness: polling the initial state with a closed channel
returns `Ready` with the quitting flag set and no send outstanding. -/
theorem c7_ready_iff_witness :
    (({ state := { (initialTask fun _ => "x") with quitting := true }, ready := true,
        diags := [] } : PollOutput).ready = true ↔
      ({ (initialTask fun _ => "x") with quitting := true } : BackgroundTask).quitting = true ∧
        ({ (initialTask fun _ => "x") with
            quitting := true } : BackgroundTask).send_task = none) :=
  c7_ready_iff (initialTask fun _ => "x")
    { incoming := [], closed := true, backoffElapsed := false, sendResult := none } _ rfl

/-- The force-flush event driving the claim C7 counterexample run. -/
def c7Event : LokiEvent :=
  { trigger_send := true, timestamp := 0, level := .error, message := "m" }

/-- The poll environments of the claim C7 counterexample run: receive one
forced event, fail the send, let the zero backoff elapse and resend, fail
again (arming a 500 ms timer), then receive the close sentinel while the
timer is still pending. -/
def c7Envs : List PollEnv :=
  [{ incoming := [some c7Event], closed := false, backoffElapsed := false, sendResult := none },
    { incoming := [], closed := false, backoffElapsed := false, sendResult := some (.error ()) },
    { incoming := [], closed := false, backoffElapsed := true, sendResult := none },
    { incoming := [], closed := false, backoffElapsed := false, sendResult := some (.error ()) },
    { incoming := [none], closed := false, backoffElapsed := false, sendResult := none }]

/-- Claim C7, counterexample: a reachable run (one forced event, two failed
sends, then a close signal while the 500 ms backoff timer is still pending)
in which the final poll returns `Ready` even though the backoff timer is
pending (`backoff = some 500` and the timer did not elapse in that cycle),
contradicting the claim that completion requires no pending backoff
timer. -/
theorem c7_counterexample :
    ((runPolls (initialTask fun _ => "L") c7Envs).map
      (fun r => (r.1.backoff, r.1.quitting, r.1.send_task, r.2.2))) =
      some (some 500, true, none, true) := by
  rfl

/-- Claim C5: in each poll cycle a new HTTP send is prepared if and only if,
at the decision point (after draining and completion handling), no send task
is outstanding, the backoff timer is not pending, and some bucket's pending
list contains a force-flush event; the prepared request consists of exactly
the per-bucket streams with non-empty entries; and if every bucket's pending
list is empty no request is issued. -/
theorem c5_prepare_guard (s : BackgroundTask) (env : PollEnv) (out : PollOutput)
    (h : pollStep s env = some out) :
    (out.state.send_task ≠ (pollPhase1 s env).1.send_task ↔
        ((pollPhase1 s env).1.send_task = none ∧ (pollPhase1 s env).2.1 = false ∧
          (pollPhase1 s env).1.queues.values.any SendQueue.should_send = true)) ∧
      ((pollPhase1 s env).1.send_task = none → (pollPhase1 s env).2.1 = false →
        (pollPhase1 s env).1.queues.values.any SendQueue.should_send = true →
        out.state.send_task =
          some (((pollPhase1 s env).1.queues.values.map streamOf).filter
            (fun st => !st.entries.isEmpty))) ∧
      ((∀ q ∈ (pollPhase1 s env).1.queues.values, q.to_send = []) →
        out.state.send_task = (pollPhase1 s env).1.send_task) := by
  simp only [pollStep] at h
  rcases hp2 : pollPhase2 (pollPhase1 s env).1 (pollPhase1 s env).2.1 with _ | p
  · rw [hp2] at h
    exact Option.noConfusion h
  · rw [hp2] at h
    cases h
    revert hp2
    generalize pollPhase1 s env = P
    obtain ⟨s1, b, ds⟩ := P
    intro hp2
    unfold pollPhase2 at hp2
    dsimp only at hp2 ⊢
    split at hp2
    · rename_i hcond
      simp only [Bool.and_eq_true, Bool.not_eq_true', Option.isNone_iff_eq_none] at hcond
      obtain ⟨⟨hnone, hb⟩, hany⟩ := hcond
      rcases hpa : prepareAll s1.queues with _ | pp
      · rw [hpa] at hp2
        exact Option.noConfusion hp2
      · rw [hpa] at hp2
        cases hp2
        have hcanon := prepareAll_eq_canonical s1.queues pp hpa
        refine ⟨⟨fun _ => ⟨hnone, hb, hany⟩, fun _ => by rw [hnone]; simp⟩, ?_, ?_⟩
        · intro _ _ _
          show some pp.2 = _
          rw [hcanon]
        · intro hempty
          exfalso
          rcases List.any_eq_true.mp hany with ⟨q, hq, hqs⟩
          rw [SendQueue.should_send, hempty q hq] at hqs
          exact Bool.noConfusion hqs
    · rename_i hcond
      cases hp2
      refine ⟨⟨fun hne => absurd rfl hne, ?_⟩, ?_, fun _ => rfl⟩
      · rintro ⟨h1, h2, h3⟩
        exact absurd (by simp [h1, h2, h3]) hcond
      · intro h1 h2 h3
        exact absurd (by simp [h1, h2, h3]) hcond

/-- The force-flush event of the claim C5 witness. -/
def c5Event : LokiEvent :=
  { trigger_send := true, timestamp := 5, level := .info, message := "hello" }

/-- The poll environment of the claim C5 witness. -/
def c5Env : PollEnv :=
  { incoming := [some c5Event], closed := false, backoffElapsed := false, sendResult := none }

/-- Claim C5, witness: from the initial state, receiving one force-flush
event prepares a request containing exactly the one non-empty bucket's
stream. -/
theorem c5_prepare_guard_witness :
    ((pollStep (initialTask fun _ => "z") c5Env).get (by rfl)).state.send_task =
      some ((((pollPhase1 (initialTask fun _ => "z") c5Env).1).queues.values.map
        streamOf).filter (fun st => !st.entries.isEmpty)) :=
  (c5_prepare_guard (initialTask fun _ => "z") c5Env _
    (Option.some_get (by rfl)).symm).2.1 rfl rfl rfl

/-- The state after a long-outage send failure, used in the proof of the
claim C3 theorem: drained queues with in-flight dropped and `on_send_result`
applied, incremented counter, armed timer, cleared send task. -/
def postFailState (s : BackgroundTask) (env : PollEnv) : BackgroundTask :=
  { queues := ((drainChannel s.queues s.quitting env.incoming).1.map
      (fun q => q.drop_outstanding.1)).map (fun q => q.on_send_result (.error ()))
    backoff_count := s.backoff_count + 1
    backoff := some (BackgroundTask.backoff_time s.backoff_count).2
    quitting := (drainChannel s.queues s.quitting env.incoming).2 || env.closed
    send_task := none }

/-- The diagnostics of a long-outage send failure, used in the proof of the
claim C3 theorem. -/
def postFailDiags (s : BackgroundTask) (env : PollEnv) : List Diagnostic :=
  [Diagnostic.sendError (s.backoff_count + 1) (BackgroundTask.backoff_time s.backoff_count).2,
    Diagnostic.droppedOutstanding
      (((drainChannel s.queues s.quitting env.incoming).1.values.map
        (fun q => q.drop_outstanding.2)).sum)]

/-- Claim C3, amended: when a send fails and the long-outage indicator of
the newly computed backoff delay is set, the in-flight (`sending`) events of
all five buckets are dropped while the pending (`to_send`) events are
retained, and the diagnostics of that poll consist of the send-error report
followed by exactly one dropped-messages report whose count is the total
number of in-flight events. -/
theorem c3_long_outage_drop (s : BackgroundTask) (env : PollEnv)
    (streams : List StreamAdapter) (out : PollOutput)
    (hs : s.send_task = some streams)
    (hr : env.sendResult = some (.error ()))
    (hd : (BackgroundTask.backoff_time s.backoff_count).1 = true)
    (hp : pollStep s env = some out) :
    (∀ l, (out.state.queues.get l).sending = [] ∧
        (out.state.queues.get l).to_send =
          ((drainChannel s.queues s.quitting env.incoming).1.get l).to_send) ∧
      out.diags =
        [Diagnostic.sendError (s.backoff_count + 1)
            (BackgroundTask.backoff_time s.backoff_count).2,
          Diagnostic.droppedOutstanding
            (((drainChannel s.queues s.quitting env.incoming).1.values.map
                (fun q => q.sending.length)).sum)] := by
  have hph1 : pollPhase1 s env = (postFailState s env, true, postFailDiags s env) := by
    simp only [pollPhase1, hs, hr, hd, eq_self_iff_true, if_true, postFailState,
      postFailDiags]
  have hp' : pollStep s env =
      some ⟨postFailState s env,
        ((drainChannel s.queues s.quitting env.incoming).2 || env.closed) && true,
        postFailDiags s env⟩ := by
    simp only [pollStep, hph1]
    rfl
  have hout := Option.some_inj.mp (hp'.symm.trans hp)
  subst hout
  refine ⟨fun l => ⟨?_, ?_⟩, ?_⟩
  · show (((postFailState s env).queues).get l).sending = []
    simp only [postFailState]
    rw [LevelMap.get_map, LevelMap.get_map]
    rfl
  · show (((postFailState s env).queues).get l).to_send = _
    simp only [postFailState]
    rw [LevelMap.get_map, LevelMap.get_map]
    rfl
  · show postFailDiags s env = _
    rfl

/-- The in-flight event of the claim C3 witness state. -/
def c3Ev1 : LokiEvent :=
  { trigger_send := true, timestamp := 1, level := .error, message := "inflight" }

/-- The pending event of the claim C3 witness state. -/
def c3Ev2 : LokiEvent :=
  { trigger_send := false, timestamp := 2, level := .error, message := "pending" }

/-- The error bucket of the claim C3 witness state. -/
def c3ErrQ : SendQueue :=
  { encoded_labels := "Q", sending := [c3Ev1], to_send := [c3Ev2] }

/-- The bucket table of the claim C3 witness state. -/
def c3Queues : LevelMap SendQueue :=
  { trace := SendQueue.new "Q"
    debug := SendQueue.new "Q"
    info := SendQueue.new "Q"
    warn := SendQueue.new "Q"
    error := c3ErrQ }

/-- The claim C3 witness state: a send outstanding, failure counter 7 (the
computed delay 32 s exceeds the 30 s long-outage threshold), one in-flight
and one pending event in the error bucket. -/
def c3S : BackgroundTask :=
  { queues := c3Queues
    backoff_count := 7
    backoff := some 16000
    quitting := false
    send_task := some [] }

/-- The claim C3 witness environment: the outstanding send fails. -/
def c3Env : PollEnv :=
  { incoming := [], closed := false, backoffElapsed := false, sendResult := some (.error ()) }

/-- Claim C3, witness: the amended claim evaluated at the concrete failing
state: the in-flight event is dropped, the pending event survives, and
exactly one drop report (counting 1) is emitted. -/
theorem c3_long_outage_drop_witness :
    (((pollStep c3S c3Env).get (by rfl)).state.queues.get .error).sending = [] ∧
      (((pollStep c3S c3Env).get (by rfl)).state.queues.get .error).to_send = [c3Ev2] ∧
      ((pollStep c3S c3Env).get (by rfl)).diags =
        [Diagnostic.sendError 8 32000, Diagnostic.droppedOutstanding 1] := by
  have h := c3_long_outage_drop c3S c3Env [] _ rfl rfl rfl (Option.some_get (by rfl)).symm
  exact ⟨(h.1 .error).1, (h.1 .error).2, h.2⟩

/-- The force-flush event of the claim C3 counterexample run. -/
def c3EvA : LokiEvent :=
  { trigger_send := true, timestamp := 1, level := .warn, message := "a" }

/-- The pending event of the claim C3 counterexample run, submitted while
the eighth send attempt is in flight. -/
def c3EvB : LokiEvent :=
  { trigger_send := false, timestamp := 2, level := .warn, message := "b" }

/-- Environments of the claim C3 counterexample run: one forced event, then
eight consecutive failed sends (re-preparing after each backoff elapse);
the eighth failure computes a 32 s delay, which exceeds the 30 s long-outage
threshold, while event `c3EvB` is pending. -/
def c3CexEnvs : List PollEnv :=
  [{ incoming := [some c3EvA], closed := false, backoffElapsed := false, sendResult := none },
    { incoming := [], closed := false, backoffElapsed := false, sendResult := some (.error ()) },
    { incoming := [], closed := false, backoffElapsed := true, sendResult := none },
    { incoming := [], closed := false, backoffElapsed := false, sendResult := some (.error ()) },
    { incoming := [], closed := false, backoffElapsed := true, sendResult := none },
    { incoming := [], closed := false, backoffElapsed := false, sendResult := some (.error ()) },
    { incoming := [], closed := false, backoffElapsed := true, sendResult := none },
    { incoming := [], closed := false, backoffElapsed := false, sendResult := some (.error ()) },
    { incoming := [], closed := false, backoffElapsed := true, sendResult := none },
    { incoming := [], closed := false, backoffElapsed := false, sendResult := some (.error ()) },
    { incoming := [], closed := false, backoffElapsed := true, sendResult := none },
    { incoming := [], closed := false, backoffElapsed := false, sendResult := some (.error ()) },
    { incoming := [], closed := false, backoffElapsed := true, sendResult := none },
    { incoming := [], closed := false, backoffElapsed := false, sendResult := some (.error ()) },
    { incoming := [], closed := false, backoffElapsed := true, sendResult := none },
    { incoming := [some c3EvB], closed := false, backoffElapsed := false,
      sendResult := some (.error ()) }]

/-- Claim C3, counterexample: in a reachable run whose eighth consecutive
send failure crosses the long-outage threshold, the pending event `c3EvB`
is NOT dropped (it remains in `to_send`), and the single drop report counts
only the 1 in-flight event — contradicting the claim that all pending and
in-flight events are dropped. -/
theorem c3_counterexample :
    ((runPolls (initialTask fun _ => "W") c3CexEnvs).map
      (fun r => ((r.1.queues.get .warn).sending, (r.1.queues.get .warn).to_send,
        r.2.1.filter (fun d =>
          match d with
          | .droppedOutstanding _ => true
          | _ => false)))) =
      some ([], [c3EvB], [Diagnostic.droppedOutstanding 1]) := by
  rfl

/-- Operations driven against a single bucket's `SendQueue` in the
all-sends-succeed scenario: pushing an event (`SendQueue::push`), preparing
a send (`SendQueue::prepare_sending`), and successful completion
(`SendQueue::on_send_result(Ok(()))`). -/
inductive QueueOp where
  | push (e : LokiEvent)
  | prepare
  | sendOk
deriving DecidableEq

/-- Run a list of queue operations from a starting state, collecting the
streams handed to the sender by each `prepare_sending`; `none` models the
panic when `prepare_sending` runs while a request is in flight. -/
def runQueue : SendQueue → List QueueOp → Option (SendQueue × List StreamAdapter)
  | q, [] => some (q, [])
  | q, .push e :: rest => runQueue (q.push e) rest
  | q, .sendOk :: rest => runQueue (q.on_send_result (.ok ())) rest
  | q, .prepare :: rest =>
    match q.prepare_sending with
    | none => none
    | some p =>
      match runQueue p.1 rest with
      | none => none
      | some r => some (r.1, p.2 :: r.2)

/-- The events pushed by a list of queue operations, in submission order. -/
def pushedEvents (ops : List QueueOp) : List LokiEvent :=
  ops.filterMap (fun op =>
    match op with
    | .push e => some e
    | _ => none)

theorem runQueue_entries (ops : List QueueOp) (q qf : SendQueue)
    (streams : List StreamAdapter) (h : runQueue q ops = some (qf, streams)) :
    (streams.map StreamAdapter.entries).flatten ++ qf.to_send.map LokiEvent.toEntry =
      q.to_send.map LokiEvent.toEntry ++ (pushedEvents ops).map LokiEvent.toEntry := by
  induction ops generalizing q streams with
  | nil =>
    obtain ⟨rfl, rfl⟩ := Prod.mk.injEq .. ▸ Option.some_inj.mp h
    simp [pushedEvents]
  | cons op rest ih =>
    cases op with
    | push e =>
      have := ih (q.push e) streams h
      rw [this]
      simp [SendQueue.push, pushedEvents, List.filterMap_cons]
    | sendOk =>
      have := ih (q.on_send_result (.ok ())) streams h
      rw [this]
      simp [SendQueue.on_send_result, pushedEvents, List.filterMap_cons]
    | prepare =>
      rw [runQueue] at h
      rcases hqs : q.prepare_sending with _ | p
      · rw [hqs] at h
        exact Option.noConfusion h
      · rw [hqs] at h
        dsimp only at h
        rcases hrr : runQueue p.1 rest with _ | r
        · rw [hrr] at h
          exact Option.noConfusion h
        · rw [hrr] at h
          dsimp only at h
          obtain ⟨rfl, rfl⟩ := Prod.mk.injEq .. ▸ Option.some_inj.mp h
          obtain ⟨hsend, rfl⟩ := (prepare_sending_eq_some q p).mp hqs
          have := ih _ r.2 hrr
          simp only [streamOf, pushedEvents, List.filterMap_cons, List.map_cons,
            List.flatten_cons, List.map_nil, List.append_nil] at this ⊢
          rw [List.append_assoc, this]
          simp

/-- Claim C1: along any panic-free run of queue operations starting from an
empty queue in which every completed send succeeds, the entries handed to
the sender by the successive `prepare_sending` calls, concatenated in order
and followed by the entries still pending at the end, are exactly the
pushed events in submission order — so up to the still-pending tail,
delivery preserves submission order with no duplication and no omission.
-/
theorem c1_exact_delivery (L : String) (ops : List QueueOp) (qf : SendQueue)
    (streams : List StreamAdapter)
    (h : runQueue (SendQueue.new L) ops = some (qf, streams)) :
    (streams.map StreamAdapter.entries).flatten ++ qf.to_send.map LokiEvent.toEntry =
      (pushedEvents ops).map LokiEvent.toEntry := by
  have := runQueue_entries ops (SendQueue.new L) qf streams h
  simpa [SendQueue.new] using this

/-- Events of the claim C1 witness: three buffered events, a force-flush
event, then one more event submitted while the first batch is in flight. -/
def c1Ev (n : Nat) : LokiEvent :=
  { trigger_send := n = 4, timestamp := n, level := .info, message := toString n }

/-- Operations of the claim C1 witness: push four events, prepare a send
containing all four, complete it successfully, push a fifth event and
prepare again. -/
def c1Ops : List QueueOp :=
  [.push (c1Ev 1), .push (c1Ev 2), .push (c1Ev 3), .push (c1Ev 4), .prepare, .sendOk,
    .push (c1Ev 5), .prepare]

/-- Claim C1, witness: the exact-delivery equation evaluated on the concrete
run `c1Ops`. -/
theorem c1_exact_delivery_witness :
    ((((runQueue (SendQueue.new "S") c1Ops).get (by rfl)).2.map
        StreamAdapter.entries).flatten ++
      ((runQueue (SendQueue.new "S") c1Ops).get (by rfl)).1.to_send.map LokiEvent.toEntry) =
      (pushedEvents c1Ops).map LokiEvent.toEntry :=
  c1_exact_delivery "S" c1Ops _ _ (Option.some_get (by rfl)).symm

/-- The construction-error type `ErrorInner` of `src/lib.rs`. -/
inductive ErrorInner where
  | DuplicateExtraField (key : String)
  | DuplicateHttpHeader (name : String)
  | DuplicateLabel (key : String)
  | InvalidHttpHeaderName (name : String)
  | InvalidHttpHeaderValue (name : String)
  | InvalidLabelCharacter (key : String) (c : Char)
  | InvalidLokiUrl
  | ReservedLabelLevel
deriving DecidableEq

/-- The byte class accepted by `ValidatedLabel::new`: ASCII letters and
underscore (`b'A'..=b'Z' | b'a'..=b'z' | b'_'`). -/
def validLabelChar (c : Char) : Bool :=
  (decide ('A' ≤ c) && decide (c ≤ 'Z')) || (decide ('a' ≤ c) && decide (c ≤ 'z')) ||
    c == '_'

/-- `ValidatedLabel::new` in `src/labels.rs`.  The Rust code scans the
label's bytes; since every accepted byte is ASCII, the first offending byte
always starts a UTF-8 character, so on the character level the function
returns `InvalidLabelCharacter` carrying the first character outside
`[A-Za-z_]`, then rejects the reserved key `level`, and otherwise accepts
(note: the empty string is accepted). -/
def ValidatedLabel.new (label : String) : Except ErrorInner String :=
  match label.toList.find? (fun c => !validLabelChar c) with
  | some c => .error (.InvalidLabelCharacter label c)
  | none =>
    if label = "level" then .error .ReservedLabelLevel
    else .ok label

/-- One character of Rust's `{:?}` string escaping (`escape_debug`),
modelled for ASCII: quote, backslash, newline, carriage return, tab and
NUL get two-character escapes, other control characters a `\u` escape,
everything else is kept as is. -/
def escapeDebugChar (c : Char) : String :=
  if c = '"' then "\\\""
  else if c = '\\' then "\\\\"
  else if c = '\n' then "\\n"
  else if c = '\r' then "\\r"
  else if c = '\t' then "\\t"
  else if c = '\x00' then "\\0"
  else if c.toNat < 32 || c.toNat = 127 then
    "\\u\x7b" ++ (Nat.toDigits 16 c.toNat).asString ++ "\x7d"
  else String.singleton c

/-- Rust's `{:?}` formatting of a string: surrounding double quotes with
each character escaped. -/
def escapeDebug (s : String) : String :=
  "\"" ++ String.join (s.toList.map escapeDebugChar) ++ "\""

/-- `FormattedLabels` in `src/labels.rs`: the set of keys seen so far and
the partially formatted selector string. -/
structure FormattedLabels where
  seen_keys : List String
  formatted : String
deriving DecidableEq

/-- `FormattedLabels::new`: no keys, the opening brace. -/
def FormattedLabels.new : FormattedLabels :=
  { seen_keys := [], formatted := "\x7b" }

/-- `FormattedLabels::add`: append `key="value"` (with a comma separator
unless the string still holds only the opening brace), unless the key was
already present, in which case the appended text is truncated away again and
a duplicate-label error is returned. -/
def FormattedLabels.add (l : FormattedLabels) (key : String) (value : String) :
    Except ErrorInner FormattedLabels :=
  let sep := if l.formatted.length ≤ 1 then "" else ","
  if key ∈ l.seen_keys then .error (.DuplicateLabel key)
  else
    .ok { seen_keys := key :: l.seen_keys
          formatted := l.formatted ++ sep ++ key ++ "=" ++ escapeDebug value }

/-- `FormattedLabels::finish`: close the selector with the level label. -/
def FormattedLabels.finish (l : FormattedLabels) (level : Level) : String :=
  let result := if l.formatted.length > 1 then l.formatted ++ "," else l.formatted
  result ++ (match level with
    | .trace => "level=\"trace\"\x7d"
    | .debug => "level=\"debug\"\x7d"
    | .info => "level=\"info\"\x7d"
    | .warn => "level=\"warn\"\x7d"
    | .error => "level=\"error\"\x7d")

/-- Whether an `Except` value is a success. -/
def exceptIsOk {ε α : Type} : Except ε α → Bool
  | .ok _ => true
  | .error _ => false

/-- The spec's acceptance condition for a label key, following its words:
the key matches `[A-Za-z_]+` (one or more characters) and is not the
reserved key `level`. -/
def specLabelKeyAccepted (label : String) : Bool :=
  decide (1 ≤ label.length) && label.toList.all validLabelChar &&
    decide (label ≠ "level")

/-- Claim C8, amended: a key is accepted iff every character (possibly
none: the empty key is accepted) is an ASCII letter or underscore and the
key is not `level`; a key containing any other character yields an
invalid-label-character error carrying its first offending character; the
key `level` yields the reserved-label error; and adding an already-present
key yields the duplicate-label error. -/
theorem c8_label_validation (label : String) (fl : FormattedLabels) (key value : String) :
    (exceptIsOk (ValidatedLabel.new label) = true ↔
        (label.toList.all validLabelChar = true ∧ label ≠ "level")) ∧
      ((∃ c, ValidatedLabel.new label = .error (.InvalidLabelCharacter label c)) ↔
        ¬label.toList.all validLabelChar = true) ∧
      (ValidatedLabel.new label = .error .ReservedLabelLevel ↔ label = "level") ∧
      (FormattedLabels.add fl key value = .error (.DuplicateLabel key) ↔
        key ∈ fl.seen_keys) := by
  refine ⟨?_, ?_, ?_, ?_⟩
  · rcases hf : List.find? (fun c => !validLabelChar c) label.data with _ | c
    · have hall : label.data.all validLabelChar = true := by
        rw [List.all_eq_true]
        intro x hx
        simpa using List.find?_eq_none.mp hf x hx
      by_cases hlv : label = "level"
      · subst hlv
        decide
      · have hnew : ValidatedLabel.new label = .ok label := by
          simp [ValidatedLabel.new, hf, hlv]
        rw [hnew]
        simp [exceptIsOk, hall, hlv]
    · have hnall : ¬label.data.all validLabelChar = true := by
        rw [List.all_eq_true]
        intro hcontra
        have hx := hcontra c (List.mem_of_find?_eq_some hf)
        have hc := List.find?_some hf
        simp [hx] at hc
      have hnew : ValidatedLabel.new label = .error (.InvalidLabelCharacter label c) := by
        simp [ValidatedLabel.new, hf]
      rw [hnew]
      simp [exceptIsOk, hnall]
  · rcases hf : List.find? (fun c => !validLabelChar c) label.data with _ | c
    · have hall : label.data.all validLabelChar = true := by
        rw [List.all_eq_true]
        intro x hx
        simpa using List.find?_eq_none.mp hf x hx
      by_cases hlv : label = "level"
      · subst hlv
        constructor
        · rintro ⟨c, hcc⟩
          simp only [show ValidatedLabel.new "level" =
            Except.error ErrorInner.ReservedLabelLevel from rfl] at hcc
          exact ErrorInner.noConfusion (Except.error.inj hcc)
        · intro habs
          exact absurd (by decide) habs
      · have hnew : ValidatedLabel.new label = .ok label := by
          simp [ValidatedLabel.new, hf, hlv]
        constructor
        · rintro ⟨c, hcc⟩
          rw [hnew] at hcc
          exact Except.noConfusion hcc
        · intro habs
          exact absurd (by simpa using hall) habs
    · have hnall : ¬label.data.all validLabelChar = true := by
        rw [List.all_eq_true]
        intro hcontra
        have hx := hcontra c (List.mem_of_find?_eq_some hf)
        have hc := List.find?_some hf
        simp [hx] at hc
      have hnew : ValidatedLabel.new label = .error (.InvalidLabelCharacter label c) := by
        simp [ValidatedLabel.new, hf]
      constructor
      · intro _
        simpa using hnall
      · intro _
        exact ⟨c, hnew⟩
  · constructor
    · intro h
      by_contra hlv
      rcases hf : List.find? (fun c => !validLabelChar c) label.data with _ | c
      · have hnew : ValidatedLabel.new label = .ok label := by
          simp [ValidatedLabel.new, hf, hlv]
        rw [hnew] at h
        exact Except.noConfusion h
      · have hnew : ValidatedLabel.new label = .error (.InvalidLabelCharacter label c) := by
          simp [ValidatedLabel.new, hf]
        rw [hnew] at h
        exact ErrorInner.noConfusion (Except.error.inj h)
    · intro hlv
      subst hlv
      rfl
  · by_cases hmem : key ∈ fl.seen_keys
    · simp [FormattedLabels.add, hmem]
    · simp [FormattedLabels.add, hmem]

/-- Claim C8, counterexample: the code accepts the empty label key, which
does not match the spec's `[A-Za-z_]+` (one or more characters). -/
theorem c8_counterexample :
    exceptIsOk (ValidatedLabel.new "") = true ∧ specLabelKeyAccepted "" = false := by
  constructor <;> rfl

/-- The argument of a rejected redirect (`BadRedirect` in `src/lib.rs`):
the offending status code and target URL. -/
structure BadRedirect where
  status : Nat
  «to» : String
deriving DecidableEq

/-- The decision of the custom redirect policy: reject with a `BadRedirect`
error, or defer to `reqwest::redirect::Policy::default()`. -/
inductive RedirectAction where
  | err (e : BadRedirect)
  | defaultFollow
deriving DecidableEq

/-- The custom redirect policy closure installed in `BackgroundTask::new`:
status 302 or 303 is rejected with a `BadRedirect` error; any other status
is handed to the default follow policy. -/
def redirectPolicy (status : Nat) (url : String) : RedirectAction :=
  if status == 302 || status == 303 then .err { status := status, «to» := url }
  else .defaultFollow

/-- Claim C9: the redirect policy rejects with an error exactly for the
status codes 302 and 303, and defers to the default follow policy exactly
otherwise. -/
theorem c9_redirect_policy (status : Nat) (url : String) :
    (redirectPolicy status url = .err { status := status, «to» := url } ↔
        (status = 302 ∨ status = 303)) ∧
      (redirectPolicy status url = .defaultFollow ↔ ¬(status = 302 ∨ status = 303)) := by
  by_cases h : status = 302 ∨ status = 303
  · have hb : (status == 302 || status == 303) = true := by
      rcases h with rfl | rfl <;> simp
    constructor
    · simp [redirectPolicy, hb, h]
    · simp [redirectPolicy, hb, h]
  · have hb : (status == 302 || status == 303) = false := by
      rcases not_or.mp h with ⟨h1, h2⟩
      simp [h1, h2]
    constructor
    · simp [redirectPolicy, hb, h]
    · simp [redirectPolicy, hb, h]

end TracingLoki
